import Mathlib

/-!
# Verification of `redis/distributed.py`

A shallow embedding of the distributed-Redis router: the
`HashRingConnectionPool` shard map and the `DistributedRedis` command
router from `redis/distributed.py`, together with the parts of the
repository the module imports but whose files are not part of the staged
sources (`redis/hash_ring.py`'s `HashRing`, the `Redis`/`ConnectionPool`
client classes of `redis/client.py`, and `redis/exceptions.py`).  Those
missing parts are modelled from the specification's words and each such
definition says so in its doc comment.

Modelling conventions:
* Byte strings (keys, command names, arguments) are `String`.
* Python dictionaries used as node specifications are association lists
  `List (String × Val)` over a small value universe `Val`.
* A Python exception is a `PyErr`; fallible code returns `Except PyErr _`.
* Object identity of a `Client` (Python compares clients by reference,
  e.g. as dictionary keys) is a construction index `Client.id`.
* A call `client.execute_command(*args)` on the external single-node
  client is represented by an oracle `exec : Client → List String → Reply`
  together with an explicit trace of the calls made, so that theorems can
  speak about which clients were contacted and in which order.
-/

namespace RedisDistributed

deriving instance DecidableEq for Except

/-- The Python values that can appear in a node-specification dictionary:
integers, strings, `None`, and the connection-pool object that
`HashRingConnectionPool.__init__` inserts under the key
`'connection_pool'` (line 34 of `redis/distributed.py`). -/
inductive Val where
  | vint (n : Int)
  | vstr (s : String)
  | vnone
  | vpool
deriving DecidableEq

/-- A Python dictionary with string keys, as an insertion-ordered
association list without repeated keys (the operations below preserve
that shape). -/
abbrev Dict := List (String × Val)

/-- Python `d.get(k, dflt)`. -/
def dictGet (d : Dict) (k : String) (dflt : Val) : Val :=
  match d.find? (fun kv => kv.1 == k) with
  | some kv => kv.2
  | none => dflt

/-- Python `d[k] = v`: replace the value under an existing key, else
append the new binding. -/
def dictSet (d : Dict) (k : String) (v : Val) : Dict :=
  if d.any (fun kv => kv.1 == k) then
    d.map (fun kv => if kv.1 == k then (k, v) else kv)
  else
    d ++ [(k, v)]

/-- Python `d.copy()`: a shallow copy.  The copy is a fresh object, so
mutating it leaves the original dictionary untouched; in the embedding
this is the identity on the value, and the embedding of `__init__`
below keeps the original and the copy apart explicitly. -/
def dictCopy (d : Dict) : Dict := d

/-- Python `d.update(kvs)` applied to a literal dictionary: set each
binding in turn. -/
def dictUpdate (d : Dict) (kvs : List (String × Val)) : Dict :=
  kvs.foldl (fun acc kv => dictSet acc kv.1 kv.2) d

/-- The Python exceptions this subsystem can raise.
`unsafeMultiNodeCommandError` is `redis.exceptions.UnsafeMultiNodeCommandError`
(`redis/exceptions.py` is not under the staged sources; the spec, section 7,
fixes only its name and that it carries no result).  `configurationError`
is the spec's name (section 7) for the construction-time failure of ring
building.  `nameError n` is Python's `NameError` raised when a statement
refers to an unbound name `n`. -/
inductive PyErr where
  | nameError (n : String)
  | indexError
  | valueError
  | typeError
  | configurationError (msg : String)
  | unsafeMultiNodeCommandError
  | emptyRingLookup
deriving DecidableEq

/-- The decimal value of a non-empty all-digit character list, `none`
otherwise. -/
def parseDigits : List Char → Option Nat
  | [] => none
  | cs =>
    cs.foldl
      (fun acc c =>
        match acc with
        | some n => if c.isDigit then some (n * 10 + (c.toNat - 48)) else none
        | none => none)
      (some 0)

/-- An optionally signed decimal integer literal, as Python's `int()`
accepts after stripping whitespace. -/
def parseIntChars : List Char → Option Int
  | '-' :: rest => (parseDigits rest).map (fun n => -(n : Int))
  | '+' :: rest => (parseDigits rest).map (fun n => (n : Int))
  | cs => (parseDigits cs).map (fun n => (n : Int))

/-- Embeds Python `int(x)` on the values a `weight` field takes in this
model: the identity on integers; on a string, parse an optionally signed
decimal integer literal with surrounding whitespace allowed
(`int("abc")` and `int("2.5")` raise `ValueError`); `TypeError` on
anything else. -/
def pyInt : Val → Except PyErr Int
  | .vint n => .ok n
  | .vstr s =>
    match parseIntChars ((s.data.dropWhile Char.isWhitespace).reverse.dropWhile
        Char.isWhitespace |>.reverse) with
    | some n => .ok n
    | none => .error .valueError
  | _ => .error .typeError

/-- One single-node client (`redis.client.Redis`), the external "Client"
capability of the spec (section 1): the router only uses its identity
(Python compares clients by reference; modelled by the construction
index `id`) and its `execute_command` capability (modelled by an oracle
passed to the router).  `params` records the keyword arguments
`Redis(**params)` received at line 38 of `redis/distributed.py`. -/
structure Client where
  id : Nat
  params : Dict
deriving DecidableEq

/-! ## The hash ring (`redis/hash_ring.py`, modelled from the spec)

`redis/distributed.py` imports `HashRing` from `redis.hash_ring`, a file
that is not among the staged sources, so the ring is modelled from the
specification (sections 3 and 4.1). -/

/-- Modelled from the spec: the size of the circular hash space,
"a fixed-width hash codomain, such as 0..2^32−1" (spec section 3). -/
def HASH_SPACE : Nat := 4294967296

/-- A 32-bit avalanche finaliser (xor-shift/multiply rounds), so that
nearby inputs spread across the whole hash space. -/
def mix32 (x : Nat) : Nat :=
  let h := x % HASH_SPACE
  let h := (h ^^^ (h / 65536)) % HASH_SPACE
  let h := (h * 2246822507) % HASH_SPACE
  let h := (h ^^^ (h / 8192)) % HASH_SPACE
  let h := (h * 3266489909) % HASH_SPACE
  (h ^^^ (h / 65536)) % HASH_SPACE

/-- Modelled from the spec: the hash family used both to place virtual
nodes and to hash keys (spec 4.1 leaves the family open; any fixed
deterministic function is faithful).  32-bit FNV-1a over the characters,
followed by an avalanche finaliser. -/
def hash32 (s : String) : Nat :=
  mix32 (s.data.foldl (fun h c => ((h ^^^ c.toNat) * 16777619) % HASH_SPACE)
    2166136261)

/-- Modelled from the spec: the per-node virtual-node multiplier
("`weight * replicationFactor` entries", spec section 3). -/
def replicationFactor : Nat := 4

/-- Modelled from the spec: a hash ring is the distinct backing nodes in
a stable construction order (spec 4.1, `nodes()`), plus the ring entries,
`(position, node)` pairs kept sorted by position (spec section 3). -/
structure HashRing where
  nodes : List Client
  ring : List (Nat × Client)
deriving DecidableEq

/-- Insert one ring entry into a position-sorted list, keeping it sorted. -/
def insertEntry (e : Nat × Client) : List (Nat × Client) → List (Nat × Client)
  | [] => [e]
  | f :: rest => if e.1 ≤ f.1 then e :: f :: rest else f :: insertEntry e rest

/-- Sort ring entries by position ascending (spec section 3: "ring
entries are kept sorted by position"). -/
def sortByPos (l : List (Nat × Client)) : List (Nat × Client) :=
  l.foldr insertEntry []

/-- Modelled from the spec: the `replicationFactor * weight` virtual
positions of one node, "each derived from hashing a distinguishing
suffix appended to the node's identity" (spec section 3; spec 4.1 hashes
`identity(node) + "#" + i`). -/
def nodePositions (c : Client) (w : Nat) : List (Nat × Client) :=
  (List.range (replicationFactor * w)).map
    (fun i => (hash32 (toString c.id ++ "#" ++ toString i), c))

/-- The weight the construction loop recorded for a client (the Python
dict `weights` keyed by client object, line 40 of `redis/distributed.py`). -/
def weightOf (ws : List (Client × Int)) (c : Client) : Int :=
  match ws.find? (fun p => p.1 == c) with
  | some p => p.2
  | none => 0

/-- Modelled from the spec: `HashRing(clients, weights)` construction
(`redis/hash_ring.py` is not under the staged sources).  Spec 4.1:
"produces an immutable ring.  For each node, generate
`replicationFactor * weight` virtual positions by hashing
`identity(node) + "#" + i` ...; insert each as a Ring Entry; sort by
position ascending; fails with `ConfigurationError` if `weight <= 0` or
is non-integral, or if `nodes` is empty."  (Non-integral weights cannot
reach the ring from `HashRingConnectionPool.__init__`, which has already
converted every weight with `int()`, so the integer check is the sign
check.) -/
def HashRing.build (clients : List Client) (weights : List (Client × Int)) :
    Except PyErr HashRing :=
  if clients.isEmpty then
    .error (.configurationError "empty node list")
  else if clients.any (fun c => weightOf weights c ≤ 0) then
    .error (.configurationError "'weight' must be a positive integer")
  else
    .ok { nodes := clients,
          ring := sortByPos (clients.foldr
            (fun c acc => nodePositions c (weightOf weights c).toNat ++ acc) []) }

/-- Modelled from the spec: `HashRing.get_node` (spec 4.1 `locate`):
"compute `h = hash(key)` using the same hash family used to place nodes;
binary-search the sorted position array for the smallest entry with
`position >= h`; if none exists, wrap to index 0.  Returns the Node of
that entry."  On the sorted entry list the first entry with
`h ≤ position` is exactly what the binary search finds.  `none` occurs
only on an empty ring, which a successful `build` never produces. -/
def HashRing.get_node (r : HashRing) (key : String) : Option Client :=
  let h := hash32 key
  match r.ring.find? (fun e => h ≤ e.1) with
  | some e => some e.2
  | none => r.ring.head?.map (fun e => e.2)

/-! ## The key classifier: `KEY_TOKEN_RE` (lines 7–8, 46–51) -/

/-- Embeds `KEY_TOKEN_RE.search(key)` for the pattern `\{([^\}]+)\}`
(line 8 of `redis/distributed.py`): scan left to right for the first
position holding `{`, then at least one character other than `}`, then
`}`; return the captured group (the characters strictly between the
braces), `none` when no position matches.  The greedy `[^\}]+` stops at
the first `}` after the `{`, so the group runs up to exactly that
brace. -/
def searchTag : List Char → Option (List Char)
  | [] => none
  | c :: rest =>
    if c = '{' then
      if (rest.dropWhile (· != '}')).isEmpty then
        -- no closing `}` after this `{`: no match can start here
        searchTag rest
      else
        let tag := rest.takeWhile (· != '}')
        if tag.isEmpty then
          -- `{}`: the group needs at least one character, restart after `{`
          searchTag rest
        else
          some tag
    else
      searchTag rest

/-- `KEY_TOKEN_RE.search` on a whole key, giving `match.group(1)` as a
string (lines 48–50 of `redis/distributed.py`). -/
def extractTag (s : String) : Option String :=
  (searchTag s.data).map (fun cs => ⟨cs⟩)

/-! ## `HashRingConnectionPool` (lines 10–61) -/

/-- The shard map of `redis/distributed.py`, lines 10–61.  `hash_ring`
is the field set at line 41.  `connState` is modelled from the spec: the
`ConnectionPool` base class (`redis/client.py`, not under the staged
sources) owns live connection state initialised by
`super(...).__init__()` at line 22; nothing in `redis/distributed.py`
reads it, and the spec's model-wide invariant (section 3) is that
routing never consults it. -/
structure HashRingConnectionPool where
  hash_ring : HashRing
  connState : List Nat
deriving DecidableEq

/-- Embeds lines 26–38 of `redis/distributed.py` for one node
specification, after the weight has been parsed: `params = node.copy()`
followed by `params.update({'socket_timeout': ..., 'connection_pool':
self, 'charset': ..., 'errors': ...})`.  Returns the keyword arguments
handed to `Redis(**params)` together with the dictionary the caller
still holds: `copy()` allocated a fresh object, so `update` mutated the
copy and the caller's dictionary is `node`, unchanged. -/
def buildClientParams (node : Dict) (socket_timeout : Val)
    (charset errors : String) : Dict × Dict :=
  let params := dictCopy node
  let params := dictUpdate params
    [("socket_timeout", socket_timeout),
     ("connection_pool", Val.vpool),
     ("charset", Val.vstr charset),
     ("errors", Val.vstr errors)]
  (params, node)

/-- Embeds the construction loop of `HashRingConnectionPool.__init__`
(lines 23–40): for each node specification in order, parse
`int(node.get('weight', 1))`; build the client's parameters and the
client (identity = construction index); record the weight under the
client.  Returns the clients and weights on success, together with the
node dictionaries as the caller sees them after the loop (an exception
leaves the remaining dictionaries untouched).

On `ValueError` from `int()`, line 29 executes
`raise RedisError("'weight' must be an integer")`; but
`redis/distributed.py` never binds `RedisError` (its imports are
`random`, `re`, `UnsafeMultiNodeCommandError`, `Connection`,
`ConnectionPool`, `Redis` and `HashRing`, and Python builtins have no
`RedisError`), so the raise statement itself fails with
`NameError("RedisError")`. -/
def poolInitAux (socket_timeout : Val) (charset errors : String) :
    List Dict → Nat →
    Except PyErr (List Client × List (Client × Int)) × List Dict
  | [], _ => (.ok ([], []), [])
  | node :: rest, idx =>
    match pyInt (dictGet node "weight" (.vint 1)) with
    | .error e =>
      -- `except ValueError:` (line 28) catches exactly `ValueError` and
      -- line 29 then hits the unbound name; any other exception of the
      -- body propagates itself.
      (.error (if e = .valueError then .nameError "RedisError" else e),
       node :: rest)
    | .ok w =>
      let pr := buildClientParams node socket_timeout charset errors
      let client : Client := ⟨idx, pr.1⟩
      match poolInitAux socket_timeout charset errors rest (idx + 1) with
      | (.ok (cs, ws), ds) => (.ok (client :: cs, (client, w) :: ws), pr.2 :: ds)
      | (.error e, ds) => (.error e, pr.2 :: ds)

/-- Embeds `HashRingConnectionPool.__init__` (lines 11–41): run the
construction loop, then `self.hash_ring = HashRing(clients, weights)`.
The second component is the list of node-specification dictionaries as
the caller sees them once construction finishes (normally or with an
exception). -/
def HashRingConnectionPool.initState (nodes : List Dict) (socket_timeout : Val)
    (charset errors : String) :
    Except PyErr HashRingConnectionPool × List Dict :=
  match poolInitAux socket_timeout charset errors nodes 0 with
  | (.error e, ds) => (.error e, ds)
  | (.ok (cs, ws), ds) =>
    match HashRing.build cs ws with
    | .error e => (.error e, ds)
    | .ok r => (.ok { hash_ring := r, connState := [] }, ds)

/-- `HashRingConnectionPool(nodes, socket_timeout, charset, errors)`:
the constructed pool, or the exception construction raises. -/
def HashRingConnectionPool.init (nodes : List Dict) (socket_timeout : Val)
    (charset errors : String) : Except PyErr HashRingConnectionPool :=
  (HashRingConnectionPool.initState nodes socket_timeout charset errors).1

/-- Embeds `get_all_clients` (lines 43–44): `return self.hash_ring.nodes`. -/
def HashRingConnectionPool.get_all_clients (p : HashRingConnectionPool) :
    List Client :=
  p.hash_ring.nodes

/-- Embeds `get_client_for_key` (lines 46–51): search the key for a
shard hint with `KEY_TOKEN_RE`; when a match exists replace the key by
`match.group(1)`; then `return self.hash_ring.get_node(key)`. -/
def HashRingConnectionPool.get_client_for_key (p : HashRingConnectionPool)
    (key : String) : Option Client :=
  p.hash_ring.get_node
    (match extractTag key with
     | some t => t
     | none => key)

/-- One step of the `get_client_map` loop (line 60):
`mapping.setdefault(client, []).append(key)` on an insertion-ordered
dictionary modelled as an association list — append the key to the
existing bucket of this client, else add a new bucket at the end. -/
def bucketAppend (m : List (Option Client × List String)) (c : Option Client)
    (k : String) : List (Option Client × List String) :=
  match m with
  | [] => [(c, [k])]
  | (c', l) :: rest =>
    if c' = c then (c', l ++ [k]) :: rest else (c', l) :: bucketAppend rest c k

/-- Embeds `get_client_map` (lines 53–61): fold the keys in order into
the mapping from owning client to the keys found on it. -/
def HashRingConnectionPool.get_client_map (p : HashRingConnectionPool)
    (keys : List String) : List (Option Client × List String) :=
  keys.foldl (fun m k => bucketAppend m (p.get_client_for_key k) k) []

/-- Lookup in the association-list model of the mapping that
`get_client_map` returns: the bucket of keys recorded under a client,
`none` when the mapping has no entry for it. -/
def bucketLookup : List (Option Client × List String) → Option Client →
    Option (List String)
  | [], _ => none
  | b :: rest, c => if b.1 = c then some b.2 else bucketLookup rest c

/-! ## `DistributedRedis` (lines 63–147) -/

/-- The fan-out set: "commands that get executed on all nodes"
(`DistributedRedis.MULTINODE_COMMANDS`, lines 78–81). -/
def MULTINODE_COMMANDS : List String :=
  ["BGREWRITEAOF", "BGSAVE", "DBSIZE", "DEL", "FLUSHDB", "FLUSHALL",
   "INFO", "KEYS", "LASTSAVE", "PING", "SAVE"]

/-- The set of "commands that are unsafe to use in a multi-node
environment" (`DistributedRedis.UNSAFE_COMMANDS`, lines 84–89). -/
def UNSAFE_COMMANDS : List String :=
  ["BLPOP", "BRPOP", "LISTEN", "MGET", "MOVE", "MSET", "MSETNX",
   "RANDOMKEY", "RENAME", "RENAMENX", "RPOPLPUSH", "SDIFF",
   "SDIFFSTORE", "SINTER", "SINTERSTORE", "SMOVE", "SORT", "SUNION",
   "SUNIONSTORE"]

/-- The state `DistributedRedis.__init__` establishes (lines 96–106):
`self.encoding`, `self.errors`, `self.connection = None`,
`self.subscribed = False`, and the connection pool. -/
structure DistributedRedis where
  encoding : String
  errors : String
  connection : Option Unit
  subscribed : Bool
  connection_pool : HashRingConnectionPool
deriving DecidableEq

/-- Modelled from the spec: `Redis.encode` (the `Redis` base class lives
in `redis/client.py`, which is not under the staged sources) converts a
key argument to the byte string the hash ring sees.  The spec already
types keys as bytes (`locate(key: bytes)`, spec 4.1) and our key model
is the byte string itself, so encoding is the identity. -/
def DistributedRedis.encode (_dr : DistributedRedis) (key : String) : String :=
  key

/-- Embeds `DistributedRedis.__init__` (lines 91–106).  The guard
`if not nodes and not connection_pool` fires when the node list is empty
(or absent: the default is `[]`) and no pool was supplied; line 94 then
executes `raise RedisError(...)`, and as at line 29 the name
`RedisError` is unbound in `redis/distributed.py`, so the raise itself
fails with `NameError("RedisError")`.  Otherwise
`self.connection_pool = connection_pool and connection_pool or
HashRingConnectionPool(nodes, ...)`: a supplied pool object is truthy
(no `ConnectionPool` truthiness override is modelled), so it is stored
as-is; with none supplied a `HashRingConnectionPool` is built from
`nodes`. -/
def DistributedRedis.init (nodes : List Dict) (socket_timeout : Val)
    (connection_pool : Option HashRingConnectionPool)
    (charset errors : String) : Except PyErr DistributedRedis :=
  if nodes.isEmpty && connection_pool.isNone then
    .error (.nameError "RedisError")
  else
    match connection_pool with
    | some p =>
      .ok { encoding := charset, errors := errors, connection := none,
            subscribed := false, connection_pool := p }
    | none =>
      match HashRingConnectionPool.init nodes socket_timeout charset errors with
      | .ok p =>
        .ok { encoding := charset, errors := errors, connection := none,
              subscribed := false, connection_pool := p }
      | .error e => .error e

/-- What a router call returns: one node's reply forwarded verbatim, or
the ordered list of per-node replies of a fan-out. -/
inductive RouterReply (Reply : Type) where
  | single (r : Reply)
  | multi (rs : List Reply)
deriving DecidableEq

/-- Embeds `DistributedRedis.execute_command` (lines 108–120) against an
oracle `exec` for the external clients' `execute_command` capability.
Besides the Python result (reply or exception), the second component is
the trace of calls made, in order: each `(client, args)` pair is one
`client.execute_command(*args)` the body performed.

`cmd = args[0]` (`IndexError` when there are no arguments at all); a
command in `MULTINODE_COMMANDS` runs on every client of
`get_all_clients()` in order and the replies are collected in that same
order; any other command takes `args[1]` (`IndexError` when absent) as
the raw key, encodes it, resolves the owning client through the pool and
forwards the full original argument list to that client alone.
`emptyRingLookup` stands for the lookup on an empty ring that a built
pool never exhibits. -/
def DistributedRedis.execute_command {Reply : Type} (dr : DistributedRedis)
    (exec : Client → List String → Reply) (args : List String) :
    Except PyErr (RouterReply Reply) × List (Client × List String) :=
  match args with
  | [] => (.error .indexError, [])
  | cmd :: rest =>
    if cmd ∈ MULTINODE_COMMANDS then
      (.ok (.multi (dr.connection_pool.get_all_clients.map
          (fun c => exec c (cmd :: rest)))),
       dr.connection_pool.get_all_clients.map (fun c => (c, cmd :: rest)))
    else
      match rest with
      | [] => (.error .indexError, [])
      | key :: _ =>
        match dr.connection_pool.get_client_for_key (dr.encode key) with
        | some client =>
          (.ok (.single (exec client (cmd :: rest))), [(client, cmd :: rest)])
        | none => (.error .emptyRingLookup, [])

/-- Embeds invoking a command on a `DistributedRedis` instance through
Python attribute dispatch.  Lines 146–147 of `redis/distributed.py`
install `unsafe_multinode_command` — a function whose whole body is
`raise UnsafeMultiNodeCommandError` (lines 143–144) — as the bound
method for every name in `UNSAFE_COMMANDS`, so those invocations raise
before any routing runs and before any client is contacted.  Every
other command name reaches `execute_command` with the command name
prepended to the arguments (the base `Redis` command methods live in
`redis/client.py`, not under the staged sources; the spec's router
surface, section 6, is `execute(commandName, args...)`). -/
def DistributedRedis.invoke_command {Reply : Type} (dr : DistributedRedis)
    (exec : Client → List String → Reply) (cmd : String)
    (cargs : List String) :
    Except PyErr (RouterReply Reply) × List (Client × List String) :=
  if cmd ∈ UNSAFE_COMMANDS then
    (.error .unsafeMultiNodeCommandError, [])
  else
    dr.execute_command exec (cmd :: cargs)

/-! ## Concrete fixtures

A two-node cluster used by the witnesses: they only instantiate the
theorems above at these concrete values. -/

/-- Node specification `{'host': '10.0.0.1'}` (default weight 1). -/
def specA : Dict := [("host", Val.vstr "10.0.0.1")]

/-- Node specification `{'host': '10.0.0.2', 'weight': 2}`. -/
def specB : Dict := [("host", Val.vstr "10.0.0.2"), ("weight", Val.vint 2)]

/-- The fallback value a fixture uses where construction cannot fail. -/
def emptyPool : HashRingConnectionPool :=
  { hash_ring := { nodes := [], ring := [] }, connState := [] }

/-- The pool `HashRingConnectionPool([specA, specB])` constructs. -/
def poolAB : HashRingConnectionPool :=
  match HashRingConnectionPool.init [specA, specB] .vnone "utf-8" "strict" with
  | .ok p => p
  | .error _ => emptyPool

/-- The same pool, its ring untouched, with different live connection
state in the `ConnectionPool` base. -/
def poolAB' : HashRingConnectionPool := { poolAB with connState := [7] }

/-- The client `HashRingConnectionPool.__init__` builds for `specA`. -/
def clientA : Client := ⟨0, (buildClientParams specA .vnone "utf-8" "strict").1⟩

/-- The client built for `specB`. -/
def clientB : Client := ⟨1, (buildClientParams specB .vnone "utf-8" "strict").1⟩

/-- A `DistributedRedis` over the two-node pool. -/
def drAB : DistributedRedis :=
  { encoding := "utf-8", errors := "strict", connection := none,
    subscribed := false, connection_pool := poolAB }

/-- A reply oracle for the witnesses: each client answers any command
with its own identity. -/
def execId : Client → List String → Nat := fun c _ => c.id

/-! ## Claim theorems -/

/-- C1: for every command name in `UNSAFE_COMMANDS` and every argument
list, invoking that command on a `DistributedRedis` raises
`UnsafeMultiNodeCommandError` synchronously, before any client is
contacted: the trace of client `execute_command` calls is empty, so no
partial side effect occurs. -/
theorem unsafe_command_raises_before_any_client_call {Reply : Type}
    (dr : DistributedRedis) (exec : Client → List String → Reply)
    (cmd : String) (h : cmd ∈ UNSAFE_COMMANDS) (cargs : List String) :
    dr.invoke_command exec cmd cargs
      = (.error .unsafeMultiNodeCommandError, []) := by
  simp [DistributedRedis.invoke_command, h]

theorem unsafe_command_raises_before_any_client_call_witness :
    drAB.invoke_command execId "MGET" ["k1", "k2"]
      = (.error .unsafeMultiNodeCommandError, []) :=
  unsafe_command_raises_before_any_client_call drAB execId "MGET"
    (by decide) ["k1", "k2"]

/-- C3: the claim says construction fails with `ConfigurationError` when
a weight is non-integral or not positive or the node list is empty.  The
empty-list and non-positive cases do fail that way (against the
spec-modelled ring construction), but for the claim's own instance
`weight="abc"`, line 29 of `redis/distributed.py` executes
`raise RedisError("'weight' must be an integer")` with `RedisError`
unbound in that module, so construction actually fails with
`NameError("RedisError")` instead of the intended error. -/
theorem weight_abc_construction_raises_nameerror :
    HashRingConnectionPool.init
        [[("host", Val.vstr "h"), ("weight", Val.vstr "abc")]]
        .vnone "utf-8" "strict"
      = .error (.nameError "RedisError")
    ∧ HashRingConnectionPool.init [] .vnone "utf-8" "strict"
      = .error (.configurationError "empty node list")
    ∧ HashRingConnectionPool.init
        [[("host", Val.vstr "h"), ("weight", Val.vint 0)]]
        .vnone "utf-8" "strict"
      = .error (.configurationError "'weight' must be a positive integer") :=
  ⟨by decide, by decide, by decide⟩

/-- C4: the claim says constructing `DistributedRedis` with an empty
node list and no `connection_pool` fails with `ConfigurationError`.  It
does fail at construction time, before any client is created, but line
94 of `redis/distributed.py` executes `raise RedisError(...)` with
`RedisError` unbound in that module, so the failure is
`NameError("RedisError")` instead of the intended error. -/
theorem empty_nodes_construction_raises_nameerror :
    DistributedRedis.init [] .vnone none "utf-8" "strict"
      = .error (.nameError "RedisError") := by
  decide

/-- C8: for a fixed ring topology, `get_client_for_key` is a
deterministic pure function of the key: it returns the same client on
the same pool, and two pools with the same ring but different live
connection state resolve every key identically — the lookup never
consults the connection state (and, being a function of the pool value,
mutates nothing). -/
theorem get_client_for_key_pure_of_ring (p q : HashRingConnectionPool)
    (h : p.hash_ring = q.hash_ring) (key : String) :
    p.get_client_for_key key = q.get_client_for_key key
    ∧ p.get_client_for_key key = p.get_client_for_key key := by
  constructor
  · simp [HashRingConnectionPool.get_client_for_key, h]
  · rfl

theorem get_client_for_key_pure_of_ring_witness :
    poolAB.get_client_for_key "user:1" = poolAB'.get_client_for_key "user:1"
    ∧ poolAB.get_client_for_key "user:1"
      = poolAB.get_client_for_key "user:1" :=
  get_client_for_key_pure_of_ring poolAB poolAB' rfl "user:1"

/-- C9: constructing a `HashRingConnectionPool` never mutates the
caller's node-specification dictionaries: whether construction succeeds
or raises, the dictionaries the caller holds afterwards are exactly the
ones passed in (`__init__` copies each spec before adding its connection
parameters). -/
theorem construction_preserves_node_dicts (nodes : List Dict)
    (socket_timeout : Val) (charset errors : String) :
    (HashRingConnectionPool.initState nodes socket_timeout
        charset errors).2 = nodes := by
  have aux : ∀ (ns : List Dict) (idx : Nat),
      (poolInitAux socket_timeout charset errors ns idx).2 = ns := by
    intro ns
    induction ns with
    | nil => intro idx; rfl
    | cons node rest ih =>
      intro idx
      simp only [poolInitAux]
      cases hw : pyInt (dictGet node "weight" (.vint 1)) with
      | error e => rfl
      | ok w =>
        cases hrec : poolInitAux socket_timeout charset errors rest (idx + 1)
          with
        | mk r ds =>
          have hds : ds = rest := by
            have := ih (idx + 1)
            rw [hrec] at this
            exact this
          cases r with
          | error e => simpa [buildClientParams] using hds
          | ok pr => simpa [buildClientParams] using hds
  unfold HashRingConnectionPool.initState
  cases haux : poolInitAux socket_timeout charset errors nodes 0 with
  | mk r ds =>
    have hds : ds = nodes := by
      have := aux nodes 0
      rw [haux] at this
      exact this
    cases r with
    | error e => simpa using hds
    | ok cw =>
      cases hb : HashRing.build cw.1 cw.2 with
      | error e => simpa [hb] using hds
      | ok ring => simpa [hb] using hds

/-- C10: when a `connection_pool` argument is supplied, `DistributedRedis`
construction stores it as-is and ignores the `nodes` argument entirely:
for every node list — empty, non-empty or holding invalid
specifications — the result is the facade over exactly the supplied
pool, no `HashRingConnectionPool` is built and no validation of `nodes`
occurs. -/
theorem supplied_pool_used_verbatim (nodes : List Dict)
    (socket_timeout : Val) (p : HashRingConnectionPool)
    (charset errors : String) :
    DistributedRedis.init nodes socket_timeout (some p) charset errors
      = .ok { encoding := charset, errors := errors, connection := none,
              subscribed := false, connection_pool := p } := by
  simp [DistributedRedis.init]

/-- The construction loop of `HashRingConnectionPool.__init__` creates
exactly one client per node specification. -/
theorem poolInitAux_ok_length (socket_timeout : Val) (charset errors : String)
    (nodes : List Dict) :
    ∀ (idx : Nat) (res : List Client × List (Client × Int)) (ds : List Dict),
      poolInitAux socket_timeout charset errors nodes idx = (.ok res, ds) →
      res.1.length = nodes.length := by
  induction nodes with
  | nil =>
    intro idx res ds h
    simp only [poolInitAux, Prod.mk.injEq] at h
    obtain ⟨h1, -⟩ := h
    obtain ⟨rfl⟩ := Except.ok.inj h1.symm
    rfl
  | cons node rest ih =>
    intro idx res ds h
    simp only [poolInitAux] at h
    cases hw : pyInt (dictGet node "weight" (.vint 1)) with
    | error e => rw [hw] at h; simp at h
    | ok w =>
      rw [hw] at h
      cases hrec : poolInitAux socket_timeout charset errors rest (idx + 1)
        with
      | mk r2 ds2 =>
        rw [hrec] at h
        cases r2 with
        | error e => simp at h
        | ok pr =>
          simp only [Prod.mk.injEq] at h
          obtain ⟨h1, -⟩ := h
          obtain ⟨rfl⟩ := Except.ok.inj h1.symm
          simpa using ih (idx + 1) pr ds2 hrec

/-- A successful spec-modelled ring build enumerates exactly the clients
it was given, in construction order. -/
theorem build_ok_nodes (clients : List Client) (ws : List (Client × Int))
    (r : HashRing) (h : HashRing.build clients ws = .ok r) :
    r.nodes = clients := by
  unfold HashRing.build at h
  split at h
  · exact absurd h (by simp)
  · split at h
    · exact absurd h (by simp)
    · simp only [Except.ok.injEq] at h
      subst h
      rfl

/-- A pool constructed from a node list holds one client per
specification. -/
theorem init_ok_client_count (nodes : List Dict) (socket_timeout : Val)
    (charset errors : String) (p : HashRingConnectionPool)
    (h : HashRingConnectionPool.init nodes socket_timeout charset errors
      = .ok p) :
    p.get_all_clients.length = nodes.length := by
  unfold HashRingConnectionPool.init HashRingConnectionPool.initState at h
  cases haux : poolInitAux socket_timeout charset errors nodes 0 with
  | mk r ds =>
    rw [haux] at h
    cases r with
    | error e => simp at h
    | ok cw =>
      obtain ⟨cls, ws⟩ := cw
      dsimp only at h
      cases hb : HashRing.build cls ws with
      | error e => rw [hb] at h; simp at h
      | ok ring =>
        rw [hb] at h
        simp only [Except.ok.injEq] at h
        have h2 := build_ok_nodes cls ws ring hb
        have h1 := poolInitAux_ok_length socket_timeout charset errors
          nodes 0 (cls, ws) ds haux
        rw [← h]
        simpa [HashRingConnectionPool.get_all_clients, h2] using h1

/-- C2: a command name in `MULTINODE_COMMANDS` is executed on every
client `get_all_clients()` returns, in that enumeration order; the
reply is the list of per-node replies in the same order (the call trace
is exactly one call per client, in order), and when the pool was
constructed from a node list the reply has exactly one entry per
configured node. -/
theorem multinode_command_fans_out_in_order {Reply : Type}
    (dr : DistributedRedis) (exec : Client → List String → Reply)
    (cmd : String) (h : cmd ∈ MULTINODE_COMMANDS) (rest : List String)
    (nodes : List Dict) (socket_timeout : Val) (charset errors : String)
    (hpool : HashRingConnectionPool.init nodes socket_timeout charset errors
      = .ok dr.connection_pool) :
    dr.execute_command exec (cmd :: rest)
      = (.ok (.multi (dr.connection_pool.get_all_clients.map
            (fun c => exec c (cmd :: rest)))),
         dr.connection_pool.get_all_clients.map (fun c => (c, cmd :: rest)))
    ∧ dr.connection_pool.get_all_clients.length = nodes.length := by
  constructor
  · simp [DistributedRedis.execute_command, h]
  · exact init_ok_client_count nodes socket_timeout charset errors
      dr.connection_pool hpool

set_option maxRecDepth 8000 in
theorem multinode_command_fans_out_in_order_witness :
    drAB.execute_command execId ["PING"]
      = (.ok (.multi (drAB.connection_pool.get_all_clients.map
            (fun c => execId c ["PING"]))),
         drAB.connection_pool.get_all_clients.map (fun c => (c, ["PING"])))
    ∧ drAB.connection_pool.get_all_clients.length = [specA, specB].length :=
  multinode_command_fans_out_in_order drAB execId "PING" (by decide) []
    [specA, specB] .vnone "utf-8" "strict" (by decide)

/-- A character list without `}` holds no `KEY_TOKEN_RE` match: the
pattern needs a closing brace. -/
theorem searchTag_eq_none_of_no_close (cs : List Char)
    (h : ∀ a ∈ cs, a ≠ '}') : searchTag cs = none := by
  induction cs with
  | nil => rfl
  | cons c rest ih =>
    have hrest : ∀ a ∈ rest, a ≠ '}' := fun a ha =>
      h a (List.mem_cons_of_mem _ ha)
    have hdrop : rest.dropWhile (· != '}') = [] :=
      List.dropWhile_eq_nil_iff.mpr fun a ha => by
        simpa [bne_iff_ne] using hrest a ha
    by_cases hc : c = '{' <;> simp [searchTag, hc, hdrop, ih hrest]

/-- The group captured by a `KEY_TOKEN_RE` match never contains `}`:
`[^\}]+` matches everything strictly before the closing brace. -/
theorem searchTag_no_close (cs : List Char) (t : List Char)
    (h : searchTag cs = some t) : ∀ a ∈ t, a ≠ '}' := by
  induction cs with
  | nil => simp [searchTag] at h
  | cons c rest ih =>
    by_cases hc : c = '{'
    · by_cases hd : (rest.dropWhile (· != '}')).isEmpty
      · rw [searchTag, if_pos hc, if_pos hd] at h
        exact ih h
      · by_cases ht : (rest.takeWhile (· != '}')).isEmpty
        · rw [searchTag, if_pos hc, if_neg hd, if_pos ht] at h
          exact ih h
        · rw [searchTag, if_pos hc, if_neg hd, if_neg ht] at h
          obtain rfl := Option.some.inj h
          intro a ha
          have := List.mem_takeWhile_imp ha
          simpa [bne_iff_ne] using this
    · rw [searchTag, if_neg hc] at h
      exact ih h

/-- The tag extracted from a key contains no further match: routing by
the tag and routing by a key whose tag it is agree. -/
theorem extractTag_extractTag (key t : String)
    (h : extractTag key = some t) : extractTag t = none := by
  unfold extractTag at h ⊢
  cases hs : searchTag key.data with
  | none => rw [hs] at h; simp at h
  | some cs =>
    rw [hs] at h
    simp only [Option.map_some', Option.some.injEq] at h
    have hcs : ∀ a ∈ cs, a ≠ '}' := searchTag_no_close key.data cs hs
    rw [← h]
    have : searchTag cs = none := searchTag_eq_none_of_no_close cs hcs
    show (searchTag (String.mk cs).data).map _ = none
    rw [show (String.mk cs).data = cs from rfl, this]
    rfl

/-- C5: a key carrying a brace-delimited non-empty tag `{t}` (the first
such occurrence) is routed by `t` alone: `get_client_for_key key` is the
ring's node for `t`, equals `get_client_for_key t`, and equals
`get_client_for_key key2` for any other key whose (first) tag is the
same `t`; a key in which `KEY_TOKEN_RE` finds no tag — no braces, or
only an empty `{}` — is hashed by the entire raw key. -/
theorem tag_forces_colocation (p : HashRingConnectionPool)
    (key key2 t : String) (h1 : extractTag key = some t)
    (h2 : extractTag key2 = some t) :
    p.get_client_for_key key = p.hash_ring.get_node t
    ∧ p.get_client_for_key key = p.get_client_for_key t
    ∧ p.get_client_for_key key = p.get_client_for_key key2
    ∧ ∀ k, extractTag k = none →
        p.get_client_for_key k = p.hash_ring.get_node k := by
  have hkey : p.get_client_for_key key = p.hash_ring.get_node t := by
    simp [HashRingConnectionPool.get_client_for_key, h1]
  have ht : p.get_client_for_key t = p.hash_ring.get_node t := by
    simp [HashRingConnectionPool.get_client_for_key,
      extractTag_extractTag key t h1]
  have hkey2 : p.get_client_for_key key2 = p.hash_ring.get_node t := by
    simp [HashRingConnectionPool.get_client_for_key, h2]
  exact ⟨hkey, by rw [hkey, ht], by rw [hkey, hkey2],
    fun k hk => by simp [HashRingConnectionPool.get_client_for_key, hk]⟩

theorem tag_forces_colocation_witness :
    poolAB.get_client_for_key "foo{tag}bar"
      = poolAB.hash_ring.get_node "tag"
    ∧ poolAB.get_client_for_key "foo{tag}bar"
      = poolAB.get_client_for_key "tag"
    ∧ poolAB.get_client_for_key "foo{tag}bar"
      = poolAB.get_client_for_key "{tag}x"
    ∧ ∀ k, extractTag k = none →
        poolAB.get_client_for_key k = poolAB.hash_ring.get_node k :=
  tag_forces_colocation poolAB "foo{tag}bar" "{tag}x" "tag"
    (by decide) (by decide)

/-- C6: a command name in neither the fan-out set nor the unsafe set,
carrying at least one positional argument, is routed on the default
path: the first positional argument (encoded) is the raw key, the
owning client is resolved through the pool, the full original command
and arguments are forwarded to that one client only (the call trace is
that single call), and its reply is returned verbatim. -/
theorem default_path_routes_to_single_owner {Reply : Type}
    (dr : DistributedRedis) (exec : Client → List String → Reply)
    (cmd key : String) (rest : List String) (c : Client)
    (h1 : cmd ∉ MULTINODE_COMMANDS) (_h2 : cmd ∉ UNSAFE_COMMANDS)
    (h3 : dr.connection_pool.get_client_for_key (dr.encode key) = some c) :
    dr.execute_command exec (cmd :: key :: rest)
      = (.ok (.single (exec c (cmd :: key :: rest))),
         [(c, cmd :: key :: rest)]) := by
  simp [DistributedRedis.execute_command, h1, h3]

set_option maxRecDepth 8000 in
theorem default_path_routes_to_single_owner_witness :
    drAB.execute_command execId ["SET", "gamma", "v"]
      = (.ok (.single (execId clientA ["SET", "gamma", "v"])),
         [(clientA, ["SET", "gamma", "v"])]) :=
  default_path_routes_to_single_owner drAB execId "SET" "gamma" ["v"]
    clientA (by decide) (by decide) (by decide)

/-- `bucketAppend` extends exactly the appended client's bucket,
creating it at the end of the mapping when absent. -/
theorem bucketLookup_bucketAppend (m : List (Option Client × List String))
    (c' c : Option Client) (k : String) :
    bucketLookup (bucketAppend m c' k) c
      = if c' = c then some ((bucketLookup m c).getD [] ++ [k])
        else bucketLookup m c := by
  induction m with
  | nil =>
    by_cases h : c' = c <;> simp [bucketAppend, bucketLookup, h]
  | cons b rest ih =>
    obtain ⟨cb, lb⟩ := b
    by_cases h1 : cb = c'
    · subst h1
      by_cases h2 : cb = c <;>
        simp [bucketAppend, bucketLookup, h2, ih]
    · by_cases h2 : cb = c
      · subst h2
        have h3 : c' ≠ cb := fun e => h1 e.symm
        simp [bucketAppend, bucketLookup, h1, h3, ih]
      · simp [bucketAppend, bucketLookup, h1, h2, ih]

/-- The `get_client_map` loop, generalised over the accumulated mapping:
the bucket a client ends with is what it started with, extended by the
keys routed to it, in input order. -/
theorem get_client_map_loop (p : HashRingConnectionPool)
    (keys : List String) :
    ∀ (m : List (Option Client × List String)) (c : Option Client),
      bucketLookup
          (keys.foldl
            (fun acc k => bucketAppend acc (p.get_client_for_key k) k) m) c
        = match bucketLookup m c,
            keys.filter (fun k => p.get_client_for_key k = c) with
          | some b, l => some (b ++ l)
          | none, [] => none
          | none, l => some l := by
  induction keys with
  | nil =>
    intro m c
    cases hm : bucketLookup m c <;> simp [hm]
  | cons k ks ih =>
    intro m c
    simp only [List.foldl_cons]
    rw [ih, bucketLookup_bucketAppend]
    by_cases hk : p.get_client_for_key k = c
    · rw [if_pos hk]
      cases hm : bucketLookup m c with
      | none => simp [List.filter_cons, hk, hm]
      | some b => simp [List.filter_cons, hk, hm]
    · rw [if_neg hk]
      simp [List.filter_cons, hk]

/-- C7: `get_client_map` partitions the input keys: the mapping holds a
bucket for a client exactly when some input key routes to it, and that
bucket is precisely the subsequence of input keys whose
`get_client_for_key` is that client, in input order — so each key
appears in exactly one client's list, the list of its owning client. -/
theorem get_client_map_partitions (p : HashRingConnectionPool)
    (keys : List String) (c : Option Client) :
    bucketLookup (p.get_client_map keys) c
      = if keys.filter (fun k => p.get_client_for_key k = c) = []
        then none
        else some (keys.filter (fun k => p.get_client_for_key k = c)) := by
  unfold HashRingConnectionPool.get_client_map
  rw [get_client_map_loop]
  cases hf : keys.filter (fun k => p.get_client_for_key k = c) with
  | nil => simp [bucketLookup]
  | cons a l => simp [bucketLookup]

end RedisDistributed
